import Mathlib

/-!
Verification of the P2P_Network tracker/peer implementation.

This file gives a shallow embedding, in Lean, of the parts of the Python
sources (`tracker.py`, `tracker_dao.py`, `client.py`,
`room_message_manager.py`, `chat_room_manager.py`) that the verified
properties are about, together with theorems settling those properties.

Modelling conventions:
* the sqlite tables are modelled as lists of rows inside a `DBState`
  record; `INSERT OR IGNORE` / `INSERT OR REPLACE` / `DELETE` become the
  corresponding list operations;
* timestamps are integers (minutes, the unit of `TEMPO_LOGIN`), `now`
  is passed explicitly where the Python code calls `datetime.now()` or
  sqlite's `CURRENT_TIMESTAMP`;
* a JSON field absent from a request, and an unset session username,
  are modelled as `""` (both are falsy in the Python code's
  `if not x` checks, exactly like the empty string);
* Python floats are modelled as rationals (`ℚ`).
-/

set_option linter.unusedVariables false

/-! ## Definitions: shallow embedding of the Python sources -/

/-- Row of the `users` table (tracker_dao.py lines 14-24).
The `password` column is omitted: no verified property mentions it. -/
structure UserRow where
  username : String
  ip : String
  port : Nat
  chat_port : Nat
  active_peer : Bool
  last_seen : Int
deriving DecidableEq

/-- Row of the `peer_scores` table (tracker_dao.py lines 26-33):
`total_time_seconds REAL`, `total_chunks_served INTEGER`. -/
structure ScoreRow where
  username : String
  total_time_seconds : ℚ
  total_chunks_served : Int
deriving DecidableEq

/-- Row of the `files` table (tracker_dao.py lines 38-45). The
`chunk_hashes` JSON column is modelled as the list it encodes. -/
structure FileRow where
  file_hash : String
  name : String
  size : Nat
  chunk_hashes : List String
deriving DecidableEq

/-- Row of the `chat_rooms` table (tracker_dao.py lines 60-68). -/
structure RoomRow where
  room_id : String
  moderator : String
  created_at : Int
  max_history : Int
deriving DecidableEq

/-- The tracker database: one list of rows per table.  `peer_files` and
`room_members` are the two-column association tables. -/
structure DBState where
  users : List UserRow
  peer_scores : List ScoreRow
  files : List FileRow
  peer_files : List (String × String)
  chat_rooms : List RoomRow
  room_members : List (String × String)
deriving DecidableEq

/-- `TEMPO_LOGIN = 1000` — session TTL in minutes (tracker.py line 7). -/
def TEMPO_LOGIN : Int := 1000

/-- `W_TIME = 0.01` (tracker.py line 8). -/
def W_TIME : ℚ := 1 / 100

/-- `W_CHUNKS = 1` (tracker.py line 9). -/
def W_CHUNKS : ℚ := 1

/-- `HEARTBEAT_INTERVAL = 60` seconds (client.py line 18). -/
def HEARTBEAT_INTERVAL : Nat := 60

/-- `SCORE_DIVIDER = 1000` (client.py line 19). -/
def SCORE_DIVIDER : Int := 1000

/-- `CHUNK_SIZE = 1024*1024` (client.py line 17). -/
def CHUNK_SIZE : Nat := 1024 * 1024

/-- `TrackerDao.verify_active_peer` (tracker_dao.py lines 104-110):
`SELECT active_peer, last_seen FROM users WHERE username = ?`,
`fetchone()` — `none` when the user does not exist. -/
def dao_verify_active_peer (db : DBState) (username : String) :
    Option (Bool × Int) :=
  (db.users.find? (fun r => r.username == username)).map
    (fun r => (r.active_peer, r.last_seen))

/-- `TrackerDao.remove_active_peer` (tracker_dao.py lines 122-130):
`UPDATE users SET active_peer = 0 WHERE username = ?`. -/
def remove_active_peer (db : DBState) (username : String) : DBState :=
  { db with
    users := db.users.map
      (fun r => if r.username == username then { r with active_peer := false } else r) }

/-- `TrackerDao.remove_peer_files` (tracker_dao.py lines 167-183):
delete the peer's `peer_files` rows, then delete every `files` row whose
hash no longer appears in `peer_files`. -/
def remove_peer_files (db : DBState) (username : String) : DBState :=
  let pf := db.peer_files.filter (fun p => !(p.1 == username))
  { db with
    peer_files := pf
    files := db.files.filter (fun f => (pf.map Prod.snd).contains f.file_hash) }

/-- `Tracker.remove_peer` (tracker.py lines 162-164):
`remove_peer_files` then `remove_active_peer`. -/
def remove_peer (db : DBState) (username : String) : DBState :=
  remove_active_peer (remove_peer_files db username) username

/-- `TrackerDao.get_active_peers_with_file` (tracker_dao.py lines 185-192):
`SELECT u.ip, u.port, u.username, ps.total_time_seconds,
ps.total_chunks_served FROM users u LEFT JOIN peer_scores ps ... WHERE
u.active_peer = 1 AND u.username IN (SELECT username FROM peer_files
WHERE file_hash = ?)`.  The LEFT JOIN makes the two score columns
nullable, hence `Option`. -/
def get_active_peers_with_file (db : DBState) (file_hash : String) :
    List (String × Nat × String × Option ℚ × Option Int) :=
  let owners := (db.peer_files.filter (fun p => p.2 == file_hash)).map Prod.fst
  (db.users.filter (fun r => r.active_peer && owners.contains r.username)).map
    (fun r =>
      let ps := db.peer_scores.find? (fun s => s.username == r.username)
      (r.ip, r.port, r.username,
        ps.map (·.total_time_seconds), ps.map (·.total_chunks_served)))

/-- `TrackerDao.get_file_metadata` (tracker_dao.py lines 194-200). -/
def get_file_metadata (db : DBState) (file_hash : String) :
    Option (String × Nat × List String) :=
  (db.files.find? (fun f => f.file_hash == file_hash)).map
    (fun f => (f.name, f.size, f.chunk_hashes))

/-- `TrackerDao.register_partial_file` (tracker_dao.py lines 153-164):
`INSERT OR IGNORE INTO peer_files (username, file_hash) VALUES (?, ?)` —
no `files` row is consulted or created. -/
def register_partial_file (db : DBState) (username file_hash : String) : DBState :=
  { db with
    peer_files :=
      if (username, file_hash) ∈ db.peer_files then db.peer_files
      else db.peer_files ++ [(username, file_hash)] }

/-- `TrackerDao.update_peer_score` (tracker_dao.py lines 242-250):
`INSERT OR REPLACE INTO peer_scores` with
`COALESCE((SELECT total_time_seconds ...), 0) + ?` and likewise for
chunks: the new row holds the old totals (0 when absent) plus the
deltas, replacing any previous row for the user. -/
def update_peer_score (db : DBState) (username : String)
    (time_online : ℚ) (chunks_served : Int) : DBState :=
  let t0 := ((db.peer_scores.find? (fun s => s.username == username)).map
    (·.total_time_seconds)).getD 0
  let c0 := ((db.peer_scores.find? (fun s => s.username == username)).map
    (·.total_chunks_served)).getD 0
  { db with
    peer_scores :=
      ⟨username, t0 + time_online, c0 + chunks_served⟩ ::
        db.peer_scores.filter (fun s => !(s.username == username)) }

/-- `TrackerDao.get_peer_score` (tracker_dao.py lines 252-257):
`fetchone() or (0, 0)`. -/
def get_peer_score (db : DBState) (username : String) : ℚ × Int :=
  match db.peer_scores.find? (fun s => s.username == username) with
  | some r => (r.total_time_seconds, r.total_chunks_served)
  | none => (0, 0)

/-- `TrackerDao.refresh_peer_files` (tracker_dao.py lines 202-220):
stamp `last_seen = CURRENT_TIMESTAMP`; compute `old` (the user's current
hashes) and `new = set(current_hashes)`; `INSERT OR IGNORE` each hash of
`new - old`; `DELETE` each `(username, hash)` row for `hash ∈ old - new`;
finally delete every `files` row whose hash owns no `peer_files` row. -/
def refresh_peer_files (db : DBState) (username : String)
    (current_hashes : List String) (now : Int) : DBState :=
  let users' := db.users.map
    (fun r => if r.username == username then { r with last_seen := now } else r)
  let old := (db.peer_files.filter (fun p => p.1 == username)).map Prod.snd
  let toInsert := current_hashes.dedup.filter (fun h => !(old.contains h))
  let toDelete := old.filter (fun h => !(current_hashes.contains h))
  let pf1 := db.peer_files ++ toInsert.map (fun h => (username, h))
  let pf2 := pf1.filter (fun p => !(p.1 == username && toDelete.contains p.2))
  let files' := db.files.filter (fun f => (pf2.map Prod.snd).contains f.file_hash)
  { db with users := users', peer_files := pf2, files := files' }

/-- `Tracker.verify_active_peer` (tracker.py lines 203-222).  Returns the
(ok, message) pair of the Python method together with the database it
leaves behind: when the peer is active but `last_seen` precedes
`now - TEMPO_LOGIN` the method calls `remove_peer` and fails with
"Login expirado". -/
def verify_active_peer (db : DBState) (username : String) (now : Int) :
    Bool × String × DBState :=
  match dao_verify_active_peer db username with
  | none => (false, "Usuário não encontrado", db)
  | some (status, last_seen) =>
    if status then
      if last_seen < now - TEMPO_LOGIN then
        (false, "Login expirado", remove_peer db username)
      else
        (true, "Peer autenticado", db)
    else
      (false, "Peer não autenticado", db)

/-- The heartbeat metrics dictionary sent by the peer
(`Peer.start_heartbeat`, client.py lines 70-75): `time_online` is the
constant `HEARTBEAT_INTERVAL` and `chunks_served` is the value of a
natural-number counter. -/
structure HBMetrics where
  time_online : ℚ
  chunks_served : Int
deriving DecidableEq

/-- The metrics of one heartbeat as the peer builds them
(client.py lines 70-75): `time_online = HEARTBEAT_INTERVAL`,
`chunks_served` = the peer's counter, a natural number. -/
def peer_metrics (chunksServed : Nat) : HBMetrics :=
  ⟨(HEARTBEAT_INTERVAL : ℚ), (chunksServed : Int)⟩

/-- `Tracker.handle_heartbeat` (tracker.py lines 141-160): validate the
session, `refresh_peer_files`, `update_peer_score`, re-read the totals
with `get_peer_score` and answer `W_TIME * time + W_CHUNKS * chunks`. -/
def handle_heartbeat (db : DBState) (username : String)
    (hashes : List String) (m : HBMetrics) (now : Int) :
    DBState × Except String ℚ :=
  let v := verify_active_peer db username now
  if v.1 then
    let db2 := refresh_peer_files v.2.2 username hashes now
    let db3 := update_peer_score db2 username m.time_online m.chunks_served
    let sc := get_peer_score db3 username
    (db3, .ok (W_TIME * sc.1 + W_CHUNKS * (sc.2 : ℚ)))
  else
    (v.2.2, .error v.2.1)

/-- One heartbeat record of the sequence fed to the tracker: the hash
list, the peer's chunks counter, and the time of processing. -/
structure HBEvent where
  hashes : List String
  chunksServed : Nat
  now : Int

/-- A sequence of heartbeats for `username` processed in order by the
tracker (each one through `Tracker.handle_heartbeat`). -/
def process_heartbeats (db : DBState) (username : String) :
    List HBEvent → DBState
  | [] => db
  | e :: es =>
      process_heartbeats
        (handle_heartbeat db username e.hashes (peer_metrics e.chunksServed) e.now).1
        username es

/-- `Tracker._calculate_peer_score` (tracker.py lines 237-240): the two
nullable score columns default to 0 (`peer[3] or 0`). -/
def calculate_peer_score (p : String × Nat × String × Option ℚ × Option Int) : ℚ :=
  W_TIME * (p.2.2.2.1.getD 0) + W_CHUNKS * ((p.2.2.2.2.getD 0 : Int) : ℚ)

/-- `Tracker.handle_get_active_peers_w_file` (tracker.py lines 224-235):
reject a missing hash, fetch the active owners, sort them by computed
score descending (`sorted(..., reverse=True)` is a stable sort, i.e.
mergeSort with the flipped comparison), annotate each with its score,
and error when the list is empty. -/
def handle_get_peers (db : DBState) (file_hash : String) :
    Except String (List (String × Nat × String × ℚ)) :=
  if file_hash == "" then .error "Hash do arquivo faltando"
  else
    let peers := get_active_peers_with_file db file_hash
    let sorted := peers.mergeSort
      (fun a b => decide (calculate_peer_score b ≤ calculate_peer_score a))
    let annotated := sorted.map
      (fun p => (p.1, p.2.1, p.2.2.1, calculate_peer_score p))
    if annotated.isEmpty then .error "Nenhum peer ativo com o arquivo encontrado"
    else .ok annotated

/-- `Tracker.handle_get_file_metadata` (tracker.py lines 242-256). -/
def handle_get_file_metadata (db : DBState) (file_hash : String) :
    Except String (String × Nat × List String) :=
  if file_hash == "" then .error "Hash do arquivo faltando"
  else
    match get_file_metadata db file_hash with
    | none => .error "Arquivo não encontrado"
    | some m => .ok m

/-- `Tracker.handle_partial_announce` (tracker.py lines 188-200):
missing data check, session validation, then
`TrackerDao.register_partial_file`. -/
def handle_partial_announce (db : DBState) (username file_hash : String)
    (now : Int) : DBState × Except String String :=
  if file_hash == "" || username == "" then (db, .error "Dados faltando")
  else
    let v := verify_active_peer db username now
    if v.1 then
      (register_partial_file v.2.2 username file_hash,
        .ok "Anúncio parcial registrado")
    else
      (v.2.2, .error v.2.1)

/-- Usernames occurring in a `get_peers` reply payload. -/
def peers_usernames (r : Except String (List (String × Nat × String × ℚ))) :
    List String :=
  match r with
  | .ok l => l.map (fun p => p.2.2.1)
  | .error _ => []

/-- `self.base_connections = 2` (client.py line 31). -/
def base_connections : Int := 2

/-- client.py lines 369-371:
`max_workers = self.base_connections + math.floor(self.score // SCORE_DIVIDER)`
followed by `if max_workers > 15: max_workers = 15`.  Python float floor
division `score // 1000` is `⌊score / 1000⌋`, and `math.floor` of that
value is the same integer. -/
def max_workers (score : ℚ) : Int :=
  let mw := base_connections + ⌊score / (SCORE_DIVIDER : ℚ)⌋
  if mw > 15 then 15 else mw

/-- A peer entry of the `get_peers` reply as the downloader holds it
(client.py line 331): `(ip, port, username, score)`. -/
abbrev PeerEntry := String × Nat × String × ℚ

/-- client.py line 378:
`chunks_order = sorted(range(num_chunks), key=lambda i: len(chunk_availability.get(i, [])))`.
Python's `sorted` is a stable merge sort by the key, i.e. `mergeSort`
with the non-strict key comparison; `chunk_availability.get(i, [])` is
the availability function applied at `i` (callers pass the dictionary's
default `[]` through the function). -/
def chunks_order (num_chunks : Nat) (availability : Nat → List PeerEntry) :
    List Nat :=
  (List.range num_chunks).mergeSort
    (fun i j => decide ((availability i).length ≤ (availability j).length))

/-- The peer attributes involved in the heartbeat loop.
`chunks_served_since_last_heartbeat` is initialised to 0 (client.py
line 30) and incremented on every successful chunk send (client.py
lines 692 and 722).  The assignment at client.py line 84,
`self.chunks_serve_since_last_heartbeat = 0` (note the missing `d`),
creates and zeroes a distinct attribute, modelled by the second field
(`none` while the attribute does not exist yet). -/
structure ClientState where
  chunks_served_since_last_heartbeat : Nat
  chunks_serve_since_last_heartbeat : Option Nat
deriving DecidableEq

/-- The heartbeat request body built at client.py lines 70-81. -/
structure HeartbeatRequest where
  file_hashes : List String
  time_online : Nat
  chunks_served : Nat
deriving DecidableEq

/-- A successful `get_chunk` send increments the served counter
(client.py lines 692 and 722). -/
def serve_chunk_success (st : ClientState) : ClientState :=
  { st with chunks_served_since_last_heartbeat :=
      st.chunks_served_since_last_heartbeat + 1 }

/-- One iteration of the heartbeat loop body (client.py lines 70-88):
collect the metrics from the served counter, build the request, then
execute the reset statement of line 84 — which assigns 0 to the
misspelled attribute `chunks_serve_since_last_heartbeat`, leaving
`chunks_served_since_last_heartbeat` unchanged. -/
def heartbeat_iteration (st : ClientState)
    (shared downloading : List String) : ClientState × HeartbeatRequest :=
  ({ st with chunks_serve_since_last_heartbeat := some 0 },
   { file_hashes := shared ++ downloading,
     time_online := HEARTBEAT_INTERVAL,
     chunks_served := st.chunks_served_since_last_heartbeat })

/-- A Python positional-argument value passed to a DAO method. -/
inductive PyVal
  | s (v : String)
  | i (v : Int)
deriving DecidableEq

/-- `TrackerDao.create_chat_room(self, room_id, moderator,
max_history=100)` (tracker_dao.py lines 267-282): insert the room row
(failing when the primary key `room_id` exists), insert the moderator as
first member, return `True`; an `IntegrityError` returns `False`. -/
def create_chat_room (db : DBState) (room_id moderator : String)
    (max_history : Int) (now : Int) : DBState × Bool :=
  if db.chat_rooms.any (fun r => r.room_id == room_id) ||
      db.room_members.contains (room_id, moderator) then
    (db, false)
  else
    ({ db with
        chat_rooms := db.chat_rooms ++ [⟨room_id, moderator, now, max_history⟩]
        room_members := db.room_members ++ [(room_id, moderator)] },
      true)

/-- The Python call `self.db.create_chat_room(...)` with positional
arguments.  `create_chat_room` binds two or three arguments after
`self` (`max_history` has a default); any other argument list raises
`TypeError` before the body runs. -/
def call_create_chat_room (db : DBState) (now : Int) (args : List PyVal) :
    Except String (DBState × Bool) :=
  match args with
  | [.s room_id, .s moderator] =>
      .ok (create_chat_room db room_id moderator 100 now)
  | [.s room_id, .s moderator, .i max_history] =>
      .ok (create_chat_room db room_id moderator max_history now)
  | _ => .error "TypeError: create_chat_room() takes at most 3 arguments besides self"

/-- `Tracker.handle_create_room` (tracker.py lines 294-313).  The outer
`Except` is an uncaught Python exception escaping the handler; the inner
one is the structured error/success response.  Line 310 passes the four
positional arguments `(room_id, name, username, max_history)` to
`create_chat_room`. -/
def handle_create_room (db : DBState) (username room_id name : String)
    (max_history : Int) (now : Int) :
    Except String (DBState × Except String String) :=
  if username == "" then .ok (db, .error "Usuário não autenticado")
  else
    let v := verify_active_peer db username now
    if !v.1 then .ok (v.2.2, .error v.2.1)
    else if room_id == "" || name == "" then
      .ok (v.2.2, .error "ID e nome da sala são obrigatórios")
    else
      match call_create_chat_room v.2.2 now
          [.s room_id, .s name, .s username, .i max_history] with
      | .error e => .error e
      | .ok (db', true) =>
          .ok (db', .ok ("Sala " ++ name ++ " criada com sucesso"))
      | .ok (db', false) =>
          .ok (db', .error "Sala já existe ou erro interno")

/-- What happens on the tracker connection for one request
(`Tracker.handle_client`, tracker.py lines 41-63): a structured
response is sent and the loop continues, unless an exception escapes
`process_request`, in which case the `except`/`finally` blocks close
the connection without any response. -/
inductive ConnOutcome
  | reply (isError : Bool) (message : String)
  | closed
deriving DecidableEq

/-- Connection-level outcome of a `create_room` request. -/
def create_room_connection_outcome (db : DBState)
    (username room_id name : String) (max_history : Int) (now : Int) :
    ConnOutcome :=
  match handle_create_room db username room_id name max_history now with
  | .error _ => .closed
  | .ok (_, .ok m) => .reply false m
  | .ok (_, .error m) => .reply true m

/-- An entry of `self.shared_files` (client.py lines 251-256): the chunk
hash list and the bytes of the file at `path` — `none` models a file
that cannot be opened or read (the `except` branches at client.py
lines 693-701). -/
structure SharedFile where
  chunks : List String
  content : Option (List Nat)

/-- An entry of `self.downloading_files` (client.py line 361): the chunk
indices already held, and the bytes of each held chunk file in the temp
directory — `none` models an unreadable chunk file (client.py
lines 723-726). -/
structure DownloadingFile where
  chunks : List Nat
  chunk_data : Nat → Option (List Nat)

/-- What the chunk server sends back on a `get_chunk` request before
closing the connection (`handle_peer_request` always closes in its
`finally`, client.py line 650): raw chunk bytes, a JSON
`{status. error, message}` line, or the plain line `Invalid request`
(client.py lines 678 and 707, `client_socket.send(b'Invalid request\n')`). -/
inductive PeerReply
  | raw (chunk_bytes : List Nat)
  | jsonError (message : String)
  | plainText (line : String)
deriving DecidableEq

/-- Whether a reply is a JSON `status. error` object. -/
def is_json_error : PeerReply → Bool
  | .jsonError _ => true
  | _ => false

/-- `Peer.process_peer_request` for `action == 'get_chunk'` (client.py
lines 671-731): a whole shared file serves the slice
`seek(chunk_index * CHUNK_SIZE); read(CHUNK_SIZE)` of its bytes; a
partial download serves the stored chunk file; an out-of-range index on
a shared file, or an index not yet held by a partial download, gets the
plain line `Invalid request`; a read failure gets the JSON error
`Chunk não encontrado`; an unknown hash gets the JSON error
`Requisição inválida`. -/
def process_get_chunk (shared : List (String × SharedFile))
    (downloading : List (String × DownloadingFile))
    (file_hash : String) (chunk_index : Nat) : PeerReply :=
  match shared.find? (fun p => p.1 == file_hash) with
  | some sf =>
    if sf.2.chunks.length ≤ chunk_index then .plainText "Invalid request"
    else
      match sf.2.content with
      | some bytes =>
          .raw ((bytes.drop (chunk_index * CHUNK_SIZE)).take CHUNK_SIZE)
      | none => .jsonError "Chunk não encontrado"
  | none =>
    match downloading.find? (fun p => p.1 == file_hash) with
    | some df =>
      if !(df.2.chunks.contains chunk_index) then .plainText "Invalid request"
      else
        match df.2.chunk_data chunk_index with
        | some bytes => .raw bytes
        | none => .jsonError "Chunk não encontrado"
    | none => .jsonError "Requisição inválida"

/-- A room message record (room_message_manager.py lines 53-59). -/
structure MsgRec where
  hash : String
  room_id : String
  sender : String
  message : String
  timestamp : Nat
deriving DecidableEq

/-- The `room_info` dictionary returned by the tracker's
`get_room_info` (tracker.py lines 438-446). -/
structure RoomInfo where
  name : String
  moderator : String
  created_at : Nat
  max_history : Nat
deriving DecidableEq

/-- Result of a save operation on the journal of a room: the journal
written back to `room_<id>.json` together with the cache contents, the
unchanged journal when the hash is a duplicate, a forward of the record
to the moderator (`_send_message_to_moderator`), or a caught
exception. -/
inductive SaveOutcome
  | savedLocal (journal : List MsgRec) (cache : List MsgRec)
  | duplicate (journal : List MsgRec)
  | forwardToModerator (moderator : String)
  | failed (message : String)
deriving DecidableEq

/-- The history truncation `if len(messages) > max_history: messages =
messages[-max_history:]` (room_message_manager.py lines 87-89).  Note
that Python's `messages[-0:]` is the whole list, hence the `k = 0`
case. -/
def tail_slice (k : Nat) (l : List MsgRec) : List MsgRec :=
  if k < l.length then
    (if k = 0 then l else l.drop (l.length - k))
  else l

/-- `RoomMessageManager._save_message_centralized`
(room_message_manager.py lines 69-100), the save path used by
`save_message` since `ChatRoomManager` constructs the manager with the
default `storage_type="centralized"` (room_message_manager.py line 18,
chat_room_manager.py line 24).  A sender that is not the moderator does
not touch its own journal: the record is forwarded to the moderator.
The moderator reads the journal, returns early on a duplicate hash,
appends the record, truncates to `max_history`, updates the cache and
writes the file — in that order, with no sort. -/
def save_message_centralized (username room_id : String)
    (room_info : Option RoomInfo) (m : MsgRec) (journal : List MsgRec) :
    SaveOutcome :=
  match room_info with
  | none => .failed "Erro ao salvar mensagem"
  | some info =>
    if info.moderator != username then .forwardToModerator info.moderator
    else if journal.any (fun r => r.hash == m.hash) then .duplicate journal
    else
      let messages := tail_slice info.max_history (journal ++ [m])
      .savedLocal messages messages

/-- `RoomMessageManager._save_message_distributed`
(room_message_manager.py lines 102-125): duplicate check by hash,
append, `messages.sort(key=lambda x: x.get('timestamp', ''))` (a stable
sort, i.e. `mergeSort` on the timestamp key), cache update, file
write. -/
def save_message_distributed (m : MsgRec) (journal : List MsgRec) :
    SaveOutcome :=
  if journal.any (fun r => r.hash == m.hash) then .duplicate journal
  else
    let messages := (journal ++ [m]).mergeSort
      (fun a b => decide (a.timestamp ≤ b.timestamp))
    .savedLocal messages messages

def dbHB : DBState := ⟨[⟨"a", "127.0.0.1", 1, 2, true, 0⟩], [], [], [], [], []⟩

def dbC5 : DBState :=
  ⟨[⟨"a", "127.0.0.1", 1, 2, true, 0⟩], [], [⟨"old1", "o.txt", 1, []⟩],
   [("a", "old1")], [], []⟩

def dbC1 : DBState :=
  ⟨[⟨"u", "127.0.0.1", 7000, 7001, true, 0⟩], [],
   [⟨"h", "f.txt", 1, ["c0"]⟩], [("u", "h")], [], []⟩

def nowC1 : Int := 2000

def dbC10 : DBState :=
  ⟨[⟨"x", "127.0.0.1", 9000, 9001, true, 0⟩], [], [], [], [], []⟩

def dbC6 : DBState :=
  ⟨[⟨"alice", "127.0.0.1", 7000, 7001, true, 0⟩], [], [], [], [], []⟩

def sharedC9 : List (String × SharedFile) := [("f", ⟨["h0"], some [1, 2]⟩)]

def msgA : MsgRec := ⟨"ha", "r", "mod", "first", 2⟩

def msgB : MsgRec := ⟨"hb", "r", "mod", "second", 1⟩

/-! ## Theorems -/

theorem remove_peer_peer_scores (db : DBState) (u : String) :
    (remove_peer db u).peer_scores = db.peer_scores := rfl

theorem verify_peer_scores_eq (db : DBState) (u : String) (now : Int) :
    (verify_active_peer db u now).2.2.peer_scores = db.peer_scores := by
  unfold verify_active_peer
  rcases dao_verify_active_peer db u with _ | ⟨status, ls⟩
  · rfl
  · dsimp only
    split
    · split <;> rfl
    · rfl

theorem verify_ok_db_eq (db : DBState) (u : String) (now : Int)
    (h : (verify_active_peer db u now).1 = true) :
    (verify_active_peer db u now).2.2 = db := by
  unfold verify_active_peer at h ⊢
  revert h
  rcases dao_verify_active_peer db u with _ | ⟨status, ls⟩
  · intro h; exact Bool.noConfusion h
  · dsimp only
    split
    · split
      · intro h; exact Bool.noConfusion h
      · intro h; rfl
    · intro h; exact Bool.noConfusion h

theorem refresh_peer_scores_eq (db : DBState) (u : String)
    (hs : List String) (now : Int) :
    (refresh_peer_files db u hs now).peer_scores = db.peer_scores := rfl

theorem get_peer_score_update (db : DBState) (u : String)
    (t : ℚ) (c : Int) :
    get_peer_score (update_peer_score db u t c) u =
      ((get_peer_score db u).1 + t, (get_peer_score db u).2 + c) := by
  unfold get_peer_score update_peer_score
  cases h : db.peer_scores.find? (fun s => s.username == u) <;>
    simp [List.find?_cons, h]

theorem get_peer_score_congr (db db' : DBState) (u : String)
    (h : db'.peer_scores = db.peer_scores) :
    get_peer_score db' u = get_peer_score db u := by
  unfold get_peer_score
  rw [h]

theorem update_peer_score_peer_files (db : DBState) (u : String) (t : ℚ) (c : Int) :
    (update_peer_score db u t c).peer_files = db.peer_files := rfl

theorem update_peer_score_users (db : DBState) (u : String) (t : ℚ) (c : Int) :
    (update_peer_score db u t c).users = db.users := rfl

theorem update_peer_score_files (db : DBState) (u : String) (t : ℚ) (c : Int) :
    (update_peer_score db u t c).files = db.files := rfl

theorem mem_user_hashes_iff (db : DBState) (u h : String) :
    h ∈ ((db.peer_files.filter (fun p => p.1 == u)).map Prod.snd) ↔
      (u, h) ∈ db.peer_files := by
  simp only [List.mem_map, List.mem_filter, beq_iff_eq]
  constructor
  · rintro ⟨⟨p1, p2⟩, ⟨hmem, hp1⟩, hp2⟩
    simp only at hp1 hp2
    rw [← hp1, ← hp2]
    exact hmem
  · intro hmem
    exact ⟨(u, h), ⟨hmem, rfl⟩, rfl⟩

theorem refresh_assoc_iff (db : DBState) (u : String)
    (hashes : List String) (now : Int) (h : String) :
    ((u, h) ∈ (refresh_peer_files db u hashes now).peer_files) ↔ h ∈ hashes := by
  unfold refresh_peer_files
  simp only [List.mem_filter, List.mem_append, List.mem_map, List.mem_dedup,
    Bool.not_eq_true', Bool.and_eq_true, beq_iff_eq, beq_self_eq_true,
    List.elem_eq_mem, List.contains_eq_any_beq, List.any_eq_true,
    decide_eq_true_eq, Prod.mk.injEq]
  by_cases hmem : h ∈ hashes <;> by_cases hold : (u, h) ∈ db.peer_files <;>
    by_cases holdh : h ∈ ((db.peer_files.filter (fun p => p.1 == u)).map Prod.snd) <;>
    simp_all [mem_user_hashes_iff]

theorem refresh_last_seen (db : DBState) (u : String)
    (hashes : List String) (now : Int) :
    ∀ r ∈ (refresh_peer_files db u hashes now).users,
      r.username = u → r.last_seen = now := by
  intro r hr hu
  simp only [refresh_peer_files, List.mem_map] at hr
  obtain ⟨r0, _, rfl⟩ := hr
  by_cases h0 : (r0.username == u) = true
  · rw [if_pos h0]
  · rw [if_neg h0] at hu
    exact absurd hu (by simpa using h0)

theorem refresh_no_orphans (db : DBState) (u : String)
    (hashes : List String) (now : Int) :
    ∀ f ∈ (refresh_peer_files db u hashes now).files,
      ∃ p ∈ (refresh_peer_files db u hashes now).peer_files,
        p.2 = f.file_hash := by
  intro f hf
  simp only [refresh_peer_files, List.mem_filter, List.contains_eq_any_beq,
    List.any_eq_true, List.mem_map, beq_iff_eq] at hf ⊢
  obtain ⟨_, x, ⟨p, hp, hpx⟩, hx⟩ := hf
  exact ⟨p, hp, by rw [hpx, ← hx]⟩

theorem heartbeat_totals_step (db : DBState) (u : String)
    (hs : List String) (c : Nat) (now : Int) :
    (get_peer_score db u).1 ≤
      (get_peer_score (handle_heartbeat db u hs (peer_metrics c) now).1 u).1 ∧
    (get_peer_score db u).2 ≤
      (get_peer_score (handle_heartbeat db u hs (peer_metrics c) now).1 u).2 := by
  simp only [handle_heartbeat]
  split
  case isTrue hv =>
    rw [get_peer_score_update]
    have e1 : get_peer_score
        (refresh_peer_files (verify_active_peer db u now).2.2 u hs now) u =
        get_peer_score db u := by
      apply get_peer_score_congr
      rw [refresh_peer_scores_eq]
      exact verify_peer_scores_eq db u now
    rw [e1]
    constructor
    · simp only [peer_metrics, HEARTBEAT_INTERVAL]
      linarith
    · simp only [peer_metrics]
      omega
  case isFalse hv =>
    have e1 : get_peer_score (verify_active_peer db u now).2.2 u =
        get_peer_score db u :=
      get_peer_score_congr _ _ _ (verify_peer_scores_eq db u now)
    rw [e1]
    exact ⟨le_refl _, le_refl _⟩

theorem process_heartbeats_mono (u : String) (es : List HBEvent) :
    ∀ db : DBState,
      (get_peer_score db u).1 ≤ (get_peer_score (process_heartbeats db u es) u).1 ∧
      (get_peer_score db u).2 ≤ (get_peer_score (process_heartbeats db u es) u).2 := by
  induction es with
  | nil => intro db; exact ⟨le_refl _, le_refl _⟩
  | cons e es ih =>
    intro db
    simp only [process_heartbeats]
    have h1 := heartbeat_totals_step db u e.hashes e.chunksServed e.now
    have h2 := ih (handle_heartbeat db u e.hashes (peer_metrics e.chunksServed) e.now).1
    exact ⟨le_trans h1.1 h2.1, le_trans h1.2 h2.2⟩

theorem heartbeat_state_eq (db : DBState) (u : String)
    (hashes : List String) (m : HBMetrics) (now : Int)
    (hok : (verify_active_peer db u now).1 = true) :
    (handle_heartbeat db u hashes m now).1 =
      update_peer_score (refresh_peer_files db u hashes now) u
        m.time_online m.chunks_served := by
  simp only [handle_heartbeat, hok, if_true]
  rw [verify_ok_db_eq db u now hok]

theorem verify_expired_db_eq (db : DBState) (u : String) (now : Int)
    (hexp : (verify_active_peer db u now).2.1 = "Login expirado") :
    (verify_active_peer db u now).2.2 = remove_peer db u := by
  unfold verify_active_peer at hexp ⊢
  revert hexp
  rcases dao_verify_active_peer db u with _ | ⟨status, ls⟩
  · intro hexp; simp at hexp
  · dsimp only
    split
    · split
      · intro _; rfl
      · intro hexp; simp at hexp
    · intro hexp; simp at hexp

theorem get_active_peers_remove_username (db : DBState) (u h : String) :
    ∀ q ∈ get_active_peers_with_file (remove_peer db u) h, q.2.2.1 ≠ u := by
  intro q hq
  unfold get_active_peers_with_file at hq
  simp only [List.mem_map, List.mem_filter, Bool.and_eq_true] at hq
  obtain ⟨r, ⟨hr, hact, _⟩, rfl⟩ := hq
  intro hu
  dsimp only at hu
  unfold remove_peer remove_active_peer at hr
  simp only [List.mem_map] at hr
  obtain ⟨r0, _, rfl⟩ := hr
  by_cases h0 : (r0.username == u) = true
  · rw [if_pos h0] at hact
    exact Bool.noConfusion hact
  · rw [if_neg h0] at hu
    exact absurd hu (by simpa using h0)

theorem not_mem_get_peers_remove (db : DBState) (u h : String) :
    u ∉ peers_usernames (handle_get_peers (remove_peer db u) h) := by
  intro hmem
  by_cases hh : (h == "") = true
  · simp [handle_get_peers, hh, peers_usernames] at hmem
  · simp only [handle_get_peers, hh, Bool.false_eq_true, if_false] at hmem
    split at hmem
    · simp [peers_usernames] at hmem
    · simp only [peers_usernames, List.mem_map] at hmem
      obtain ⟨p, ⟨q, hq, rfl⟩, hpu⟩ := hmem
      rw [List.mem_mergeSort] at hq
      exact get_active_peers_remove_username db u h q hq hpu

theorem verify_ok_active_row (db : DBState) (u : String) (now : Int)
    (hok : (verify_active_peer db u now).1 = true) :
    ∃ r ∈ db.users, r.username = u ∧ r.active_peer = true := by
  unfold verify_active_peer dao_verify_active_peer at hok
  cases hf : db.users.find? (fun r => r.username == u) with
  | none => rw [hf] at hok; exact Bool.noConfusion hok
  | some r =>
    rw [hf] at hok
    have hmem := List.mem_of_find?_eq_some hf
    have huser : r.username = u := by simpa using List.find?_some hf
    refine ⟨r, hmem, huser, ?_⟩
    by_cases hact : r.active_peer = true
    · exact hact
    · rw [Option.map_some'] at hok
      dsimp only at hok
      rw [if_neg hact] at hok
      exact Bool.noConfusion hok

theorem register_partial_file_mem (db : DBState) (u h : String) :
    (u, h) ∈ (register_partial_file db u h).peer_files := by
  unfold register_partial_file
  split
  case isTrue hin => exact hin
  case isFalse hin => exact List.mem_append_right _ (List.mem_singleton_self _)

theorem mem_peers_usernames_of_active_owner (db : DBState) (u h : String)
    (hh : (h == "") = false)
    (hrow : ∃ r ∈ db.users, r.username = u ∧ r.active_peer = true)
    (hassoc : (u, h) ∈ db.peer_files) :
    u ∈ peers_usernames (handle_get_peers db h) := by
  obtain ⟨r, hr, hru, hact⟩ := hrow
  have howner : u ∈ (db.peer_files.filter (fun p => p.2 == h)).map Prod.fst := by
    simp only [List.mem_map, List.mem_filter]
    exact ⟨(u, h), ⟨hassoc, by simp⟩, rfl⟩
  have hmemrow : r ∈ db.users.filter (fun rr => rr.active_peer &&
      ((db.peer_files.filter (fun p => p.2 == h)).map Prod.fst).contains rr.username) := by
    rw [List.mem_filter]
    refine ⟨hr, ?_⟩
    rw [hact, Bool.true_and, hru]
    simpa using howner
  have hq : (r.ip, r.port, r.username,
      (db.peer_scores.find? (fun s => s.username == r.username)).map (·.total_time_seconds),
      (db.peer_scores.find? (fun s => s.username == r.username)).map (·.total_chunks_served)) ∈
      get_active_peers_with_file db h := by
    unfold get_active_peers_with_file
    exact List.mem_map_of_mem _ hmemrow
  simp only [handle_get_peers, hh, Bool.false_eq_true, if_false]
  have hqs := @List.mem_mergeSort _
    (fun a b => decide (calculate_peer_score b ≤ calculate_peer_score a)) _ _ |>.mpr hq
  have hann := List.mem_map_of_mem
    (fun p => (p.1, p.2.1, p.2.2.1, calculate_peer_score p)) hqs
  split
  case isTrue hemp =>
    rw [List.isEmpty_iff] at hemp
    rw [hemp] at hann
    exact absurd hann (List.not_mem_nil _)
  case isFalse hemp =>
    unfold peers_usernames
    exact List.mem_map.mpr ⟨_, hann, hru⟩

theorem tail_slice_sublist (k : Nat) (l : List MsgRec) :
    (tail_slice k l).Sublist l := by
  unfold tail_slice
  split
  · split
    · exact List.Sublist.refl l
    · exact List.drop_sublist _ l
  · exact List.Sublist.refl l

theorem mem_tail_slice_last (k : Nat) (l : List MsgRec) (m : MsgRec) :
    m ∈ tail_slice k (l ++ [m]) := by
  unfold tail_slice
  split
  case isTrue hlen =>
    split
    case isTrue hk => exact List.mem_append_right _ (List.mem_singleton_self m)
    case isFalse hk =>
      rw [List.drop_append_of_le_length (by
        simp only [List.length_append, List.length_singleton] at hlen ⊢
        omega)]
      exact List.mem_append_right _ (List.mem_singleton_self m)
  case isFalse hlen =>
    exact List.mem_append_right _ (List.mem_singleton_self m)

/-- C1 counterexample — the claim says a peer whose stored last-seen
precedes `now − TTL` is absent from every `get_peers` response.  In
`dbC1` the peer "u" is active with `last_seen = 0`, which precedes
`nowC1 − TEMPO_LOGIN = 1000`, yet — since
`TrackerDao.get_active_peers_with_file` filters only on
`active_peer = 1` and never checks `last_seen` — "u" still appears in
the `get_peers` response for "h" and its association is still stored:
expiry is only enforced lazily, by `verify_active_peer`, on the
expired peer's own next session-validated request. -/
theorem expired_peer_listed_by_get_peers :
    (dao_verify_active_peer dbC1 "u" = some (true, 0) ∧
      (0 : Int) < nowC1 - TEMPO_LOGIN) ∧
    "u" ∈ peers_usernames (handle_get_peers dbC1 "h") ∧
    ("u", "h") ∈ dbC1.peer_files := by
  refine ⟨⟨by decide, by decide⟩, ?_, by decide⟩
  have hpeers : get_active_peers_with_file dbC1 "h" =
      [("127.0.0.1", 7000, "u", none, none)] := by decide
  simp [handle_get_peers, hpeers, peers_usernames]

/-- C1 as amended — expiry is enforced at active-peer validation time:
whenever `Tracker.verify_active_peer` detects an expired peer (it fails
with "Login expirado"), it runs `remove_peer`, after which the peer is
absent from every `get_peers` response and all of its file
associations are removed. -/
theorem expired_peer_purged_on_validation (db : DBState) (u : String) (now : Int)
    (hexp : (verify_active_peer db u now).2.1 = "Login expirado") :
    (verify_active_peer db u now).2.2 = remove_peer db u ∧
    (∀ h, u ∉ peers_usernames
        (handle_get_peers (verify_active_peer db u now).2.2 h)) ∧
    (∀ p ∈ (verify_active_peer db u now).2.2.peer_files, p.1 ≠ u) := by
  have hdb := verify_expired_db_eq db u now hexp
  refine ⟨hdb, ?_, ?_⟩
  · intro h
    rw [hdb]
    exact not_mem_get_peers_remove db u h
  · intro p hp
    rw [hdb] at hp
    unfold remove_peer remove_active_peer remove_peer_files at hp
    simp only [List.mem_filter, Bool.not_eq_true', beq_eq_false_iff_ne] at hp
    exact hp.2

/-- Witness for C1 at the concrete expired state `dbC1`. -/
theorem expired_peer_purged_on_validation_witness :
    (verify_active_peer dbC1 "u" nowC1).2.1 = "Login expirado" ∧
    "u" ∉ peers_usernames
        (handle_get_peers (verify_active_peer dbC1 "u" nowC1).2.2 "h") :=
  ⟨by decide,
   (expired_peer_purged_on_validation dbC1 "u" nowC1 (by decide)).2.1 "h"⟩

/-- C2 — for any sequence of heartbeats processed by the tracker for a
user (each carrying the metrics the peer builds:
`time_online = HEARTBEAT_INTERVAL` and a natural-number chunk counter,
client.py lines 70-75), the stored totals `total_time_seconds` and
`total_chunks_served` are non-decreasing, and every successful
heartbeat returns exactly
`W_TIME · total_time + W_CHUNKS · total_chunks` computed over the
accumulated totals after the update. -/
theorem heartbeat_totals_monotone_score_formula
    (db : DBState) (u : String) (es : List HBEvent) :
    ((get_peer_score db u).1 ≤ (get_peer_score (process_heartbeats db u es) u).1 ∧
     (get_peer_score db u).2 ≤ (get_peer_score (process_heartbeats db u es) u).2) ∧
    (∀ (db0 : DBState) (e : HBEvent) (s : ℚ),
      (handle_heartbeat db0 u e.hashes (peer_metrics e.chunksServed) e.now).2 = .ok s →
      s = W_TIME *
            (get_peer_score
              (handle_heartbeat db0 u e.hashes (peer_metrics e.chunksServed) e.now).1 u).1 +
          W_CHUNKS *
            ((get_peer_score
              (handle_heartbeat db0 u e.hashes (peer_metrics e.chunksServed) e.now).1 u).2 : ℚ)) := by
  refine ⟨process_heartbeats_mono u es db, ?_⟩
  intro db0 e s hok
  simp only [handle_heartbeat] at hok ⊢
  split at hok
  case isTrue hv =>
    simp only [Except.ok.injEq] at hok
    split
    case isTrue hv2 => exact hok.symm
    case isFalse hv2 => exact absurd hv hv2
  case isFalse hv => exact Except.noConfusion hok

/-- Witness for C2: a first heartbeat on `dbHB` succeeds and returns
`W_TIME * 60 + W_CHUNKS * 0 = 3/5`. -/
theorem heartbeat_totals_monotone_score_formula_witness :
    (handle_heartbeat dbHB "a" [] (peer_metrics 0) 0).2 = .ok (3/5 : ℚ) ∧
    (3/5 : ℚ) =
      W_TIME * (get_peer_score (handle_heartbeat dbHB "a" [] (peer_metrics 0) 0).1 "a").1 +
      W_CHUNKS * ((get_peer_score (handle_heartbeat dbHB "a" [] (peer_metrics 0) 0).1 "a").2 : ℚ) :=
  have hok : (handle_heartbeat dbHB "a" [] (peer_metrics 0) 0).2 = .ok (3/5 : ℚ) := by
    norm_num [handle_heartbeat, verify_active_peer, dao_verify_active_peer, dbHB,
      refresh_peer_files, update_peer_score, get_peer_score, peer_metrics,
      HEARTBEAT_INTERVAL, TEMPO_LOGIN, W_TIME, W_CHUNKS, List.find?]
  ⟨hok,
   (heartbeat_totals_monotone_score_formula dbHB "a" []).2 dbHB ⟨[], 0, 0⟩ (3/5) hok⟩

/-- C3 — For every score value held by the downloading peer (the peer's
score is always non-negative: it starts at 0 and is only replaced by
tracker scores `W_TIME·time + W_CHUNKS·chunks` of non-negative totals),
the worker-pool size used for a download equals
`min(15, max(2, 2 + floor(score / SCORE_DIVIDER)))`, base 2 and cap 15. -/
theorem max_workers_eq_clamp (score : ℚ) (h : 0 ≤ score) :
    max_workers score = min 15 (max 2 (2 + ⌊score / (SCORE_DIVIDER : ℚ)⌋)) := by
  have h0 : (0 : Int) ≤ ⌊score / (SCORE_DIVIDER : ℚ)⌋ := by
    apply Int.floor_nonneg.mpr
    have hd : (0 : ℚ) < (SCORE_DIVIDER : ℚ) := by norm_num [SCORE_DIVIDER]
    exact div_nonneg h (le_of_lt hd)
  unfold max_workers base_connections
  simp only []
  split <;> omega

/-- Witness for C3, with the spec's own scenario S6:
score 3500 gives `min(15, 2+3) = 5` workers. -/
theorem max_workers_eq_clamp_witness :
    (0 : ℚ) ≤ 3500 ∧
      max_workers 3500 = min 15 (max 2 (2 + ⌊(3500 : ℚ) / (SCORE_DIVIDER : ℚ)⌋)) :=
  ⟨by norm_num, max_workers_eq_clamp 3500 (by norm_num)⟩

/-- C4 — For every file with `n` chunks and every availability map `A`,
the download plan `chunks_order` is a permutation of `[0..n)` along
which the availability-set sizes are non-decreasing (rarest first, ties
arbitrary). -/
theorem chunks_order_rarest_first (n : Nat) (A : Nat → List PeerEntry) :
    (chunks_order n A).Perm (List.range n) ∧
    (chunks_order n A).Pairwise
      (fun i j => (A i).length ≤ (A j).length) := by
  constructor
  · exact List.mergeSort_perm _ _
  · have hs := @List.sorted_mergeSort _
      (fun i j => decide ((A i).length ≤ (A j).length))
      (fun a b c h1 h2 => by
        simp only [decide_eq_true_eq] at h1 h2 ⊢
        omega)
      (fun a b => by
        simp only [Bool.or_eq_true, decide_eq_true_eq]
        omega)
      (List.range n)
    exact hs.imp (fun h => by simpa using h)

/-- C5 — for every heartbeat from an active peer (one whose session
validation succeeds), the tracker reconciles the peer's association set
to exactly the transmitted hash list (inserting the new hashes and
deleting the ones no longer listed), refreshes the peer's last-seen
timestamp to the current time, and afterwards every remaining file
record has at least one owning peer. -/
theorem heartbeat_reconciles_associations (db : DBState) (u : String)
    (hashes : List String) (m : HBMetrics) (now : Int)
    (hok : (verify_active_peer db u now).1 = true) :
    (∀ h, ((u, h) ∈ (handle_heartbeat db u hashes m now).1.peer_files ↔
        h ∈ hashes)) ∧
    (∀ r ∈ (handle_heartbeat db u hashes m now).1.users,
        r.username = u → r.last_seen = now) ∧
    (∀ f ∈ (handle_heartbeat db u hashes m now).1.files,
        ∃ p ∈ (handle_heartbeat db u hashes m now).1.peer_files,
          p.2 = f.file_hash) := by
  rw [heartbeat_state_eq db u hashes m now hok]
  rw [update_peer_score_peer_files, update_peer_score_users, update_peer_score_files]
  exact ⟨fun h => refresh_assoc_iff db u hashes now h,
         refresh_last_seen db u hashes now,
         refresh_no_orphans db u hashes now⟩

/-- Witness for C5 on `dbC5`: the heartbeat listing only "new1" adds
that association and drops the previously held "old1". -/
theorem heartbeat_reconciles_associations_witness :
    (verify_active_peer dbC5 "a" 0).1 = true ∧
    (("a", "new1") ∈
        (handle_heartbeat dbC5 "a" ["new1"] (peer_metrics 0) 0).1.peer_files ↔
      "new1" ∈ ["new1"]) ∧
    (("a", "old1") ∈
        (handle_heartbeat dbC5 "a" ["new1"] (peer_metrics 0) 0).1.peer_files ↔
      "old1" ∈ ["new1"]) :=
  ⟨by decide,
   (heartbeat_reconciles_associations dbC5 "a" ["new1"] (peer_metrics 0) 0
      (by decide)).1 "new1",
   (heartbeat_reconciles_associations dbC5 "a" ["new1"] (peer_metrics 0) 0
      (by decide)).1 "old1"⟩

/-- C6 — the claim says every well-framed `create_room` request that
fails logically gets a structured error reply and the connection stays
open.  In the code a valid `create_room` request from an active user
always raises `TypeError` (tracker.py line 310 passes four positional
arguments to the three-parameter `TrackerDao.create_chat_room`), the
exception escapes `process_request`, and `handle_client` closes the
connection without sending any response. -/
theorem create_room_request_closes_connection :
    create_room_connection_outcome dbC6 "alice" "room1" "Sala Um" 100 0 =
      .closed ∧
    (verify_active_peer dbC6 "alice" 0).1 = true := by
  decide

/-- C7 — the claim says that after every heartbeat the peer's
chunks-served counter is reset, so a chunk served exactly once is
reported in exactly one heartbeat.  In the code the reset at client.py
line 84 writes to the misspelled attribute, so a chunk served once
before the first heartbeat is reported by that heartbeat *and again* by
the next one: this theorem evaluates the loop at that failing input. -/
theorem chunk_reported_in_every_heartbeat :
    (heartbeat_iteration (serve_chunk_success ⟨0, none⟩) [] []).2.chunks_served = 1 ∧
    (heartbeat_iteration
        (heartbeat_iteration (serve_chunk_success ⟨0, none⟩) [] []).1
        [] []).2.chunks_served = 1 := by
  decide

/-- C8 counterexample — the claim says the send-path persist step sorts
the journal by timestamp.  With the default centralized storage the
moderator "mod", a member of the room, sends a record with timestamp 1
into a journal holding a record with timestamp 2; the journal written
back and cached is `[msgA, msgB]`, with the timestamp-2 record before
the timestamp-1 record: the centralized save appends without sorting. -/
theorem centralized_save_does_not_sort :
    save_message_centralized "mod" "r" (some ⟨"r", "mod", 0, 100⟩) msgB [msgA] =
      .savedLocal [msgA, msgB] [msgA, msgB] ∧
    msgB.timestamp < msgA.timestamp := by
  exact ⟨rfl, by decide⟩

/-- C8 as amended — on the room-message send path with the default
centralized storage, only a sender who is the room's moderator persists
the message into its own per-room journal (under the manager-wide
`sync_lock`): the journal is read, a record duplicating an existing
hash leaves the journal unchanged, otherwise the record is appended and
the history truncated to the room's max-history, and the same list is
cached and written back — with no re-sorting by timestamp.  A
non-moderator sender instead forwards the record to the moderator.
Only the distributed-mode save path sorts the journal by timestamp. -/
theorem centralized_save_characterization
    (username room_id : String) (info : RoomInfo) (m : MsgRec)
    (journal : List MsgRec) :
    (info.moderator ≠ username →
      save_message_centralized username room_id (some info) m journal =
        .forwardToModerator info.moderator) ∧
    (info.moderator = username →
      ((∃ r ∈ journal, r.hash = m.hash) →
        save_message_centralized username room_id (some info) m journal =
          .duplicate journal) ∧
      ((∀ r ∈ journal, r.hash ≠ m.hash) →
        ∃ j, save_message_centralized username room_id (some info) m journal =
            .savedLocal j j ∧
          m ∈ j ∧ (∀ r ∈ j, r ∈ journal ∨ r = m) ∧
          ((journal.map MsgRec.hash).Nodup → (j.map MsgRec.hash).Nodup))) ∧
    (∀ j c, save_message_distributed m journal = .savedLocal j c →
      j.Pairwise (fun a b => a.timestamp ≤ b.timestamp)) := by
  refine ⟨?_, ?_, ?_⟩
  · intro hne
    unfold save_message_centralized
    dsimp only
    rw [if_pos (by simpa using hne)]
  · intro heq
    have hmod : (info.moderator != username) = false := by simpa using heq
    constructor
    · rintro ⟨r, hr, hh⟩
      unfold save_message_centralized
      dsimp only
      rw [hmod]
      rw [if_neg (by simp)]
      rw [if_pos (show (journal.any fun rr => rr.hash == m.hash) = true from
        List.any_eq_true.mpr ⟨r, hr, by simpa using hh⟩)]
    · intro hnew
      have hany : (journal.any (fun r => r.hash == m.hash)) = false := by
        rw [List.any_eq_false]
        intro r hr
        simpa using hnew r hr
      refine ⟨tail_slice info.max_history (journal ++ [m]), ?_, ?_, ?_, ?_⟩
      · unfold save_message_centralized
        dsimp only
        rw [hmod]
        rw [if_neg (by simp)]
        rw [hany]
        rw [if_neg (by simp)]
      · exact mem_tail_slice_last _ _ _
      · intro r hr
        have hmem := (tail_slice_sublist info.max_history (journal ++ [m])).subset hr
        rcases List.mem_append.mp hmem with h | h
        · exact Or.inl h
        · exact Or.inr (List.mem_singleton.mp h)
      · intro hnd
        have hsub := (tail_slice_sublist info.max_history (journal ++ [m])).map MsgRec.hash
        apply List.Nodup.sublist hsub
        rw [List.map_append]
        rw [List.nodup_append]
        refine ⟨hnd, List.nodup_singleton _, ?_⟩
        intro a ha hb
        obtain ⟨r, hr, rfl⟩ := List.mem_map.mp ha
        simp only [List.map_cons, List.map_nil, List.mem_singleton] at hb
        exact hnew r hr hb
  · intro j c hjc
    unfold save_message_distributed at hjc
    split at hjc
    · exact SaveOutcome.noConfusion hjc
    · simp only [SaveOutcome.savedLocal.injEq] at hjc
      obtain ⟨hj, -⟩ := hjc
      have hs := @List.sorted_mergeSort _
        (fun a b => decide (a.timestamp ≤ b.timestamp))
        (fun a b c h1 h2 => by
          simp only [decide_eq_true_eq] at h1 h2 ⊢
          omega)
        (fun a b => by
          simp only [Bool.or_eq_true, decide_eq_true_eq]
          omega)
        (journal ++ [m])
      rw [← hj]
      exact hs.imp (fun h => by simpa using h)

/-- Witness for C8: a non-moderator sender forwards to the moderator
instead of writing its own journal. -/
theorem centralized_save_characterization_witness :
    save_message_centralized "other" "r" (some ⟨"r", "mod", 0, 100⟩) msgA [] =
      .forwardToModerator "mod" :=
  (centralized_save_characterization "other" "r" ⟨"r", "mod", 0, 100⟩ msgA []).1
    (by decide)

/-- C9 counterexample — the claim says every `get_chunk` failure is
answered with a JSON `status. error` object before the connection is
closed.  For a shared file with one chunk, requesting chunk 5 is a
failure (invalid, out-of-range index), yet the reply sent is the plain
line `Invalid request` (client.py line 678), not a JSON error object. -/
theorem get_chunk_invalid_index_plain_text :
    process_get_chunk sharedC9 [] "f" 5 = .plainText "Invalid request" ∧
    is_json_error (process_get_chunk sharedC9 [] "f" 5) = false := by
  exact ⟨rfl, rfl⟩

/-- C9 as amended — classification of every `get_chunk` reply: raw chunk
bytes on success (for a whole file, exactly the
`CHUNK_SIZE`-byte slice at `chunk_index * CHUNK_SIZE`); the JSON error
`Requisição inválida` for an unknown file and `Chunk não encontrado`
for an unreadable chunk; but the plain line `Invalid request` — not a
JSON object — for an out-of-range or not-yet-held chunk index.  The
connection is closed after the reply in every case (client.py
line 650). -/
theorem get_chunk_reply_cases (shared : List (String × SharedFile))
    (downloading : List (String × DownloadingFile))
    (fh : String) (i : Nat) :
    (∀ e, shared.find? (fun p => p.1 == fh) = some e →
      ((e.2.chunks.length ≤ i →
          process_get_chunk shared downloading fh i =
            .plainText "Invalid request") ∧
       (i < e.2.chunks.length →
          (∀ b, e.2.content = some b →
            process_get_chunk shared downloading fh i =
              .raw ((b.drop (i * CHUNK_SIZE)).take CHUNK_SIZE)) ∧
          (e.2.content = none →
            process_get_chunk shared downloading fh i =
              .jsonError "Chunk não encontrado")))) ∧
    (shared.find? (fun p => p.1 == fh) = none →
      (∀ e, downloading.find? (fun p => p.1 == fh) = some e →
        ((i ∉ e.2.chunks →
            process_get_chunk shared downloading fh i =
              .plainText "Invalid request") ∧
         (i ∈ e.2.chunks →
            (∀ b, e.2.chunk_data i = some b →
              process_get_chunk shared downloading fh i = .raw b) ∧
            (e.2.chunk_data i = none →
              process_get_chunk shared downloading fh i =
                .jsonError "Chunk não encontrado")))) ∧
      (downloading.find? (fun p => p.1 == fh) = none →
        process_get_chunk shared downloading fh i =
          .jsonError "Requisição inválida")) := by
  unfold process_get_chunk
  refine ⟨?_, ?_⟩
  · intro e he
    rw [he]
    dsimp only
    constructor
    · intro hle
      rw [if_pos hle]
    · intro hlt
      rw [if_neg (by omega)]
      constructor
      · intro b hb; rw [hb]
      · intro hb; rw [hb]
  · intro hs
    rw [hs]
    dsimp only
    constructor
    · intro e he
      rw [he]
      dsimp only
      constructor
      · intro hnot
        rw [if_pos (by simpa using hnot)]
      · intro hmem
        rw [if_neg (by simpa using hmem)]
        constructor
        · intro b hb; rw [hb]
        · intro hb; rw [hb]
    · intro hd
      rw [hd]

theorem get_chunk_reply_cases_witness :
    process_get_chunk [] [] "nofile" 0 = .jsonError "Requisição inválida" :=
  ((get_chunk_reply_cases [] [] "nofile" 0).2 rfl).2 rfl

/-- C10 — for every hash `h` with no file record, a `partial_announce`
by an active peer succeeds and creates the `(peer, h)` association
(`register_partial_file` inserts into `peer_files` without consulting
`files`; the sqlite connection never enables foreign-key enforcement),
so the peer is returned by `get_peers(h)` while `get_file_metadata(h)`
still answers the file-not-found error. -/
theorem partial_announce_without_file_record (db : DBState) (u h : String)
    (now : Int)
    (hu : u ≠ "") (hh : h ≠ "")
    (hok : (verify_active_peer db u now).1 = true)
    (hnofile : ∀ f ∈ db.files, f.file_hash ≠ h) :
    (handle_partial_announce db u h now).2 = .ok "Anúncio parcial registrado" ∧
    (u, h) ∈ (handle_partial_announce db u h now).1.peer_files ∧
    u ∈ peers_usernames
        (handle_get_peers (handle_partial_announce db u h now).1 h) ∧
    handle_get_file_metadata (handle_partial_announce db u h now).1 h =
      .error "Arquivo não encontrado" := by
  have hhb : (h == "") = false := by simpa using hh
  have hub : (u == "") = false := by simpa using hu
  have hstate : handle_partial_announce db u h now =
      (register_partial_file db u h, .ok "Anúncio parcial registrado") := by
    simp only [handle_partial_announce, hhb, hub, Bool.or_self, Bool.false_eq_true,
      if_false, hok, if_true]
    rw [verify_ok_db_eq db u now hok]
  rw [hstate]
  refine ⟨rfl, register_partial_file_mem db u h, ?_, ?_⟩
  · have husers : (register_partial_file db u h).users = db.users := rfl
    apply mem_peers_usernames_of_active_owner _ u h hhb
    · rw [husers]
      exact verify_ok_active_row db u now hok
    · exact register_partial_file_mem db u h
  · have hfiles : (register_partial_file db u h).files = db.files := rfl
    have hnone : db.files.find? (fun f => f.file_hash == h) = none := by
      rw [List.find?_eq_none]
      intro f hf
      simpa using hnofile f hf
    simp only [handle_get_file_metadata, hhb, Bool.false_eq_true, if_false,
      get_file_metadata, hfiles, hnone]
    rfl

/-- Witness for C10 on `dbC10` with the unregistered hash "hh". -/
theorem partial_announce_without_file_record_witness :
    ("x" : String) ≠ "" ∧ ("hh" : String) ≠ "" ∧
    (verify_active_peer dbC10 "x" 0).1 = true ∧
    (handle_partial_announce dbC10 "x" "hh" 0).2 = .ok "Anúncio parcial registrado" ∧
    "x" ∈ peers_usernames
        (handle_get_peers (handle_partial_announce dbC10 "x" "hh" 0).1 "hh") ∧
    handle_get_file_metadata (handle_partial_announce dbC10 "x" "hh" 0).1 "hh" =
      .error "Arquivo não encontrado" :=
  have hmain := partial_announce_without_file_record dbC10 "x" "hh" 0
    (by decide) (by decide) (by decide) (by intro f hf; exact absurd hf (List.not_mem_nil f))
  ⟨by decide, by decide, by decide, hmain.1, hmain.2.2.1, hmain.2.2.2⟩
